import Mathlib

/-!
Verification of the user-crud service (Go) against its specification.

Shallow embedding notes:
* Go `int`/`int64` values are embedded as `Int`; no operation reached by the
  properties below can overflow a 64-bit integer, so no wrap-around modelling
  is needed.
* Go `time.Time` values are embedded as an abstract instant `Int`; handlers
  receive the current instant `now` as an explicit parameter.
* bcrypt is an external collaborator (spec §1): handlers are parameterized by
  an opaque `hash : String → String` and `verify : String → String → Bool`.
* The goroutine-detached cache operations (`go cache.DeleteUser ...`,
  `go cache.SetUser ...`) are modelled at their completion point, which is the
  scenario the temporal claims quantify over.
* Go `len(s)` on a string counts UTF-8 bytes, embedded as `String.utf8ByteSize`;
  `strings.TrimSpace` is embedded as `goTrim` (whitespace stripped at both ends).
-/

namespace UserCrud

/-- The user entity (internal/domain/user.go, struct User).  The password hash
carries the json:"-" tag: it is omitted by encoding/json (see `marshalUser`). -/
structure User where
  id : Int
  name : String
  email : String
  passwordHash : String
  age : Int
  createdAt : Int
  updatedAt : Int
deriving DecidableEq

/-- Public projection of a user (internal/domain/user.go, struct PublicUser).
It has no credential field at all. -/
structure PublicUser where
  id : Int
  name : String
  email : String
  age : Int
  createdAt : Int
  updatedAt : Int
deriving DecidableEq

/-- ToPublicUser (internal/domain/user.go): strips the password hash. -/
def User.toPublicUser (u : User) : PublicUser :=
  { id := u.id, name := u.name, email := u.email, age := u.age
    createdAt := u.createdAt, updatedAt := u.updatedAt }

/-- The error taxonomy of the service.  `notFound` is domain.ErrUserNotFound,
`alreadyExists` is domain.ErrUserAlreadyExists (the Conflict condition, HTTP
409), `incorrectCredential` is the "old password is incorrect" error (HTTP
401), `validation msg` is an errors.New(msg) validation failure (HTTP 400),
and `storeUniqueViolation` is a raw postgres unique-constraint error that the
repository surfaces untranslated (it reaches the HTTP layer as a generic 500). -/
inductive DomainError where
  | notFound
  | alreadyExists
  | incorrectCredential
  | validation (msg : String)
  | storeUniqueViolation
deriving DecidableEq

instance {ε α : Type} [DecidableEq ε] [DecidableEq α] : DecidableEq (Except ε α) :=
  fun a b =>
    match a, b with
    | .ok x, .ok y =>
      if h : x = y then .isTrue (by rw [h]) else .isFalse (by intro hc; cases hc; exact h rfl)
    | .error x, .error y =>
      if h : x = y then .isTrue (by rw [h]) else .isFalse (by intro hc; cases hc; exact h rfl)
    | .ok _, .error _ => .isFalse (by intro hc; cases hc)
    | .error _, .ok _ => .isFalse (by intro hc; cases hc)

/-- Leading and trailing whitespace removal on a character list. -/
def trimChars (cs : List Char) : List Char :=
  ((cs.dropWhile Char.isWhitespace).reverse.dropWhile Char.isWhitespace).reverse

/-- Model of strings.TrimSpace: strip whitespace from both ends. -/
def goTrim (s : String) : String := ⟨trimChars s.toList⟩

/-- Does the needle start the haystack? (helper for the ILIKE model). -/
def charsLeading : List Char → List Char → Bool
  | [], _ => true
  | _ :: _, [] => false
  | n :: ns, h :: hs => n == h && charsLeading ns hs

/-- Is the needle a contiguous run inside the haystack? -/
def hasSubstr (needle : List Char) : List Char → Bool
  | [] => needle.isEmpty
  | h :: t => charsLeading needle (h :: t) || hasSubstr needle t

/-- Case folding for the ILIKE model (ASCII letters). -/
def asciiLower (c : Char) : Char :=
  if 'A' ≤ c ∧ c ≤ 'Z' then Char.ofNat (c.toNat + 32) else c

/-- Model of the SQL predicate `field ILIKE '%' || kw || '%'`: case-insensitive
substring containment (database.go wraps every keyword in bounding wildcards). -/
def ilikeContains (field kw : String) : Bool :=
  hasSubstr (kw.toList.map asciiLower) (field.toList.map asciiLower)

/-- NewUser (internal/domain/user.go): trims name/email/password, validates,
hashes the password, and stamps both timestamps with the current instant.
The id is 0 until the store assigns one (repoCreate). -/
def newUser (hash : String → String) (now : Int)
    (name email password : String) (age : Int) : Except DomainError User :=
  let name := goTrim name
  let email := goTrim email
  let password := goTrim password
  if name = "" then .error (.validation "name cannot be empty")
  else if email = "" then .error (.validation "email cannot be empty")
  else if password = "" then .error (.validation "password cannot be empty")
  else if password.utf8ByteSize < 8 then
    .error (.validation "password must be at least 8 characters")
  else if age < 0 ∨ age > 150 then
    .error (.validation "age must be between 0 and 150")
  else .ok { id := 0, name := name, email := email,
             passwordHash := hash password, age := age,
             createdAt := now, updatedAt := now }

/-- User.Update (internal/domain/user.go): profile mutation; no trimming here. -/
def User.updateProfile (u : User) (now : Int)
    (name email : String) (age : Int) : Except DomainError User :=
  if name = "" then .error (.validation "name cannot be empty")
  else if email = "" then .error (.validation "email cannot be empty")
  else if age < 0 ∨ age > 150 then
    .error (.validation "age must be between 0 and 150")
  else .ok { u with name := name, email := email, age := age, updatedAt := now }

/-- User.UpdatePassword (internal/domain/user.go): verify the old password
first, then validate the new one, then replace the hash. -/
def User.updatePassword (u : User) (verify : String → String → Bool)
    (hash : String → String) (now : Int)
    (oldPassword newPassword : String) : Except DomainError User :=
  if !(verify u.passwordHash oldPassword) then .error .incorrectCredential
  else if newPassword = "" then .error (.validation "new password cannot be empty")
  else if newPassword.utf8ByteSize < 8 then
    .error (.validation "new password must be at least 8 characters")
  else .ok { u with passwordHash := hash newPassword, updatedAt := now }

/-- The relational store: the users table plus the SERIAL id sequence
(cmd/api/main.go, runMigrations: id SERIAL PRIMARY KEY, email UNIQUE). -/
structure Store where
  rows : List User
  nextId : Int
deriving DecidableEq

/-- PostgresUserRepository.GetByID: NotFound when no row matches. -/
def repoGetByID (st : Store) (id : Int) : Except DomainError User :=
  match st.rows.find? (fun u => u.id == id) with
  | some u => .ok u
  | none => .error .notFound

/-- PostgresUserRepository.GetByEmail.  Go returns the pair (*User, error);
on no match it returns (nil, domain.ErrUserNotFound) — the same NotFound error
as GetByID.  We keep the pair structure because the call sites discard the
error component. -/
def repoGetByEmail (st : Store) (email : String) : Option User × Option DomainError :=
  match st.rows.find? (fun u => u.email == email) with
  | some u => (some u, none)
  | none => (none, some .notFound)

/-- PostgresUserRepository.Create plus the users.email UNIQUE constraint of the
schema: a duplicate email makes the INSERT fail with a driver-level error
(modelled as `storeUniqueViolation`); otherwise the SERIAL sequence assigns the
next id and the row is appended. -/
def repoCreate (st : Store) (u : User) : Except DomainError (Store × User) :=
  if st.rows.any (fun r => r.email == u.email) then .error .storeUniqueViolation
  else
    let u' := { u with id := st.nextId }
    .ok ({ rows := st.rows ++ [u'], nextId := st.nextId + 1 }, u')

/-- PostgresUserRepository.Update: full-row replace; NotFound when zero rows
are affected. -/
def repoUpdate (st : Store) (u : User) : Except DomainError Store :=
  if st.rows.any (fun r => r.id == u.id) then
    .ok { st with rows := st.rows.map (fun r => if r.id == u.id then u else r) }
  else .error .notFound

/-- PostgresUserRepository.Delete: NotFound when zero rows are affected. -/
def repoDelete (st : Store) (id : Int) : Except DomainError Store :=
  if st.rows.any (fun r => r.id == id) then
    .ok { st with rows := st.rows.filter (fun r => !(r.id == id)) }
  else .error .notFound

/-- The wire form of a User under encoding/json (cache storage format): every
field except the password hash, which carries the json:"-" tag. -/
structure UserJson where
  id : Int
  name : String
  email : String
  age : Int
  createdAt : Int
  updatedAt : Int
deriving DecidableEq

/-- json.Marshal of a User: the hash is dropped by its json:"-" tag. -/
def marshalUser (u : User) : UserJson :=
  { id := u.id, name := u.name, email := u.email, age := u.age
    createdAt := u.createdAt, updatedAt := u.updatedAt }

/-- json.Unmarshal into a fresh User: the absent hash field keeps Go's zero
value, the empty string. -/
def unmarshalUser (j : UserJson) : User :=
  { id := j.id, name := j.name, email := j.email, passwordHash := ""
    age := j.age, createdAt := j.createdAt, updatedAt := j.updatedAt }

/-- The redis cache keyed by "user:<id>": association list id ↦ marshalled user. -/
abbrev Cache := List (Int × UserJson)

/-- RedisCache.GetUser: key lookup, then json.Unmarshal; redis.Nil is a miss. -/
def cacheGetUser (c : Cache) (id : Int) : Option User :=
  (c.find? (fun p => p.1 == id)).map (fun p => unmarshalUser p.2)

/-- RedisCache.SetUser: json.Marshal then SET, which overwrites the key. -/
def cacheSetUser (c : Cache) (u : User) : Cache :=
  (u.id, marshalUser u) :: c.filter (fun p => !(p.1 == u.id))

/-- RedisCache.DeleteUser: DEL of the key. -/
def cacheDeleteUser (c : Cache) (id : Int) : Cache :=
  c.filter (fun p => !(p.1 == id))

/-- The whole system as seen by the handlers: the primary store and the cache. -/
structure SysState where
  store : Store
  cache : Cache
deriving DecidableEq

/-- CreateUserCommand (internal/application/command). -/
structure CreateUserCommand where
  name : String
  email : String
  password : String
  age : Int
deriving DecidableEq

/-- UpdateUserCommand. -/
structure UpdateUserCommand where
  id : Int
  name : String
  email : String
  age : Int
deriving DecidableEq

/-- ChangePasswordCommand. -/
structure ChangePasswordCommand where
  userId : Int
  oldPassword : String
  newPassword : String
deriving DecidableEq

/-- GetUserHandler.Handle (query/get_user.go): cache first; a hit returns the
cached user; a miss falls through to the store and repopulates the cache (the
detached SetUser, modelled at completion).  Any store error becomes NotFound. -/
def getUserHandle (st : SysState) (id : Int) : Except DomainError User × SysState :=
  match cacheGetUser st.cache id with
  | some u => (.ok u, st)
  | none =>
    match repoGetByID st.store id with
    | .error _ => (.error .notFound, st)
    | .ok u => (.ok u, { st with cache := cacheSetUser st.cache u })

/-- CreateUserHandler.Handle (command/create_user.go): by-email pre-check with
the error component discarded, then NewUser, then repo Create.  The cache is
never touched: there is nothing to invalidate for a fresh user. -/
def createUserHandle (hash : String → String) (now : Int)
    (st : SysState) (cmd : CreateUserCommand) :
    Except DomainError User × SysState :=
  if ((repoGetByEmail st.store cmd.email).1).isSome then (.error .alreadyExists, st)
  else
    match newUser hash now cmd.name cmd.email cmd.password cmd.age with
    | .error e => (.error e, st)
    | .ok u =>
      match repoCreate st.store u with
      | .error e => (.error e, st)
      | .ok (store', u') => (.ok u', { st with store := store' })

/-- The conflict pre-check of UpdateUserHandler.Handle: only when the email is
being changed, look the new email up (error component again discarded) and
flag a conflict when it belongs to a different user. -/
def emailChangeConflict (st : Store) (cmd : UpdateUserCommand) (user : User) : Bool :=
  !(user.email == cmd.email) &&
    (match (repoGetByEmail st cmd.email).1 with
     | some existing => !(existing.id == cmd.id)
     | none => false)

/-- UpdateUserHandler.Handle: fetch, conflict pre-check when the email changes,
validate, persist, then the detached cache invalidation (modelled at
completion). -/
def updateUserHandle (now : Int) (st : SysState) (cmd : UpdateUserCommand) :
    Except DomainError User × SysState :=
  match repoGetByID st.store cmd.id with
  | .error _ => (.error .notFound, st)
  | .ok user =>
    if emailChangeConflict st.store cmd user then (.error .alreadyExists, st)
    else
      match user.updateProfile now cmd.name cmd.email cmd.age with
      | .error e => (.error e, st)
      | .ok user' =>
        match repoUpdate st.store user' with
        | .error e => (.error e, st)
        | .ok store' =>
          (.ok user', { store := store', cache := cacheDeleteUser st.cache cmd.id })

/-- DeleteUserHandler.Handle: existence check, delete, then the detached cache
invalidation (modelled at completion). -/
def deleteUserHandle (st : SysState) (id : Int) :
    Except DomainError Unit × SysState :=
  match repoGetByID st.store id with
  | .error _ => (.error .notFound, st)
  | .ok _ =>
    match repoDelete st.store id with
    | .error e => (.error e, st)
    | .ok store' => (.ok (), { store := store', cache := cacheDeleteUser st.cache id })

/-- ChangePasswordHandler.Handle (command/change_password.go): fetch, verify
and re-hash via User.UpdatePassword, persist, then the detached cache
invalidation (modelled at completion). -/
def changePasswordHandle (verify : String → String → Bool)
    (hash : String → String) (now : Int)
    (st : SysState) (cmd : ChangePasswordCommand) :
    Except DomainError Unit × SysState :=
  match repoGetByID st.store cmd.userId with
  | .error _ => (.error .notFound, st)
  | .ok user =>
    match user.updatePassword verify hash now cmd.oldPassword cmd.newPassword with
    | .error e => (.error e, st)
    | .ok user' =>
      match repoUpdate st.store user' with
      | .error e => (.error e, st)
      | .ok store' =>
        (.ok (), { store := store', cache := cacheDeleteUser st.cache cmd.userId })

/-- ListUsersQuery (query/list_users.go): the query descriptor. -/
structure ListUsersQuery where
  search : String
  ageMin : Int
  ageMax : Int
  sortBy : String
  order : String
  page : Int
  limit : Int
deriving DecidableEq

/-- The default-setting block of ListUsersHandler.Handle (list_users.go):
page < 1 → 1, limit < 1 → 10, then limit > 100 → 100, empty sort → "id",
empty order → "asc".  The clamps are applied in sequence. -/
def normalizeListQuery (q0 : ListUsersQuery) : ListUsersQuery :=
  let q1 := if q0.page < 1 then { q0 with page := 1 } else q0
  let q2 := if q1.limit < 1 then { q1 with limit := 10 } else q1
  let q3 := if q2.limit > 100 then { q2 with limit := 100 } else q2
  let q4 := if q3.sortBy = "" then { q3 with sortBy := "id" } else q3
  if q4.order = "" then { q4 with order := "asc" } else q4

/-- The sort-field allow list of FindWithFilters (database.go). -/
def validSortFields : List String := ["id", "name", "email", "age", "created_at"]

/-- FindWithFilters sort-field validation: anything off the list becomes "id". -/
def effectiveSortBy (s : String) : String :=
  if validSortFields.contains s then s else "id"

/-- FindWithFilters order validation: anything but asc/desc becomes "asc". -/
def effectiveOrder (s : String) : String :=
  if s = "asc" ∨ s = "desc" then s else "asc"

/-- The WHERE-clause conditions FindWithFilters appends, in source order:
keyword ILIKE against name OR email when the keyword is non-empty, age lower
bound when strictly positive, age upper bound when strictly positive. -/
def filterConditions (q : ListUsersQuery) : List (User → Bool) :=
  (if q.search ≠ "" then
    [fun u => ilikeContains u.name q.search || ilikeContains u.email q.search]
   else []) ++
  (if q.ageMin > 0 then [fun u => decide (q.ageMin ≤ u.age)] else []) ++
  (if q.ageMax > 0 then [fun u => decide (u.age ≤ q.ageMax)] else [])

/-- The conjunction (AND-join) of the appended conditions. -/
def matchesFilters (q : ListUsersQuery) (u : User) : Bool :=
  (filterConditions q).all (fun c => c u)

/-- ORDER BY key comparison for one sort field (the five allowed columns). -/
def userFieldLe (field : String) (a b : User) : Bool :=
  if field = "name" then (compare a.name b.name).isLE
  else if field = "email" then (compare a.email b.email).isLE
  else if field = "age" then decide (a.age ≤ b.age)
  else if field = "created_at" then decide (a.createdAt ≤ b.createdAt)
  else decide (a.id ≤ b.id)

/-- ORDER BY comparison including the direction. -/
def userLe (field order : String) (a b : User) : Bool :=
  if order = "desc" then userFieldLe field b a else userFieldLe field a b

/-- Ordered insertion (tie order among equal keys is unspecified by the store;
this model makes one arbitrary stable choice, and no claim depends on it). -/
def insertSorted (le : User → User → Bool) (x : User) : List User → List User
  | [] => [x]
  | y :: ys => if le x y then x :: y :: ys else y :: insertSorted le x ys

/-- Sort of the matched rows, modelling the ORDER BY clause. -/
def sortUsers (le : User → User → Bool) : List User → List User
  | [] => []
  | x :: xs => insertSorted le x (sortUsers le xs)

/-- LIMIT/OFFSET window.  After normalization offset and limit are
non-negative; Int.toNat maps them onto list positions. -/
def pageWindow (l : List User) (offset limit : Int) : List User :=
  (l.drop offset.toNat).take limit.toNat

/-- PostgresUserRepository.FindWithFilters (database.go): filter by the
conjoined predicate, count the full match set, sort by the validated
field/direction, and cut the (page-1)*limit window. -/
def findWithFilters (st : Store) (q : ListUsersQuery) : List User × Int :=
  let matched := st.rows.filter (fun u => matchesFilters q u)
  let sorted := sortUsers (userLe (effectiveSortBy q.sortBy) (effectiveOrder q.order)) matched
  (pageWindow sorted ((q.page - 1) * q.limit) q.limit, (matched.length : Int))

/-- Go integer division: truncation toward zero. -/
def goDiv (a b : Int) : Int := Int.tdiv a b

/-- Go integer remainder: the truncated remainder matching goDiv. -/
def goMod (a b : Int) : Int := Int.tmod a b

/-- The total-pages computation shared by ListUsersHandler.Handle and
SearchUsersHandler.Handle: integer division with a remainder bump. -/
def totalPagesCalc (total limit : Int) : Int :=
  goDiv total limit + (if goMod total limit > 0 then 1 else 0)

/-- ListUsersResult (list_users.go). -/
structure ListUsersResult where
  users : List User
  total : Int
  page : Int
  limit : Int
  totalPages : Int
deriving DecidableEq

/-- ListUsersHandler.Handle: normalize, query the repository, derive the
page count, echo the normalized page and limit. -/
def listUsersHandle (st : Store) (q0 : ListUsersQuery) : ListUsersResult :=
  let q := normalizeListQuery q0
  let res := findWithFilters st q
  { users := res.1, total := res.2, page := q.page, limit := q.limit
    totalPages := totalPagesCalc res.2 q.limit }

/-- SearchUsersQuery (list_users.go). -/
structure SearchUsersQuery where
  keyword : String
  page : Int
  limit : Int
deriving DecidableEq

/-- The default-setting block of SearchUsersHandler.Handle. -/
def normalizeSearchQuery (q0 : SearchUsersQuery) : SearchUsersQuery :=
  let q1 := if q0.page < 1 then { q0 with page := 1 } else q0
  let q2 := if q1.limit < 1 then { q1 with limit := 10 } else q1
  if q2.limit > 100 then { q2 with limit := 100 } else q2

/-- PostgresUserRepository.Search (database.go): keyword ILIKE against name OR
email, count of the match set, ORDER BY id, LIMIT/OFFSET window. -/
def repoSearch (st : Store) (keyword : String) (page limit : Int) :
    List User × Int :=
  let matched := st.rows.filter
    (fun u => ilikeContains u.name keyword || ilikeContains u.email keyword)
  let sorted := sortUsers (fun a b => decide (a.id ≤ b.id)) matched
  (pageWindow sorted ((page - 1) * limit) limit, (matched.length : Int))

/-- SearchUsersHandler.Handle. -/
def searchUsersHandle (st : Store) (q0 : SearchUsersQuery) : ListUsersResult :=
  let q := normalizeSearchQuery q0
  let res := repoSearch st q.keyword q.page q.limit
  { users := res.1, total := res.2, page := q.page, limit := q.limit
    totalPages := totalPagesCalc res.2 q.limit }

/-- Value of an all-digit character run. -/
def digitsVal (ds : List Char) : Nat :=
  ds.foldl (fun acc c => acc * 10 + (c.toNat - '0'.toNat)) 0

/-- Model of strconv.Atoi as used at this call site, `v, _ := strconv.Atoi(s)`:
the pair is (value, err == nil).  An optional sign followed by at least one
digit parses; everything else yields (0, false) and the caller discards the
error.  (Go's out-of-range clamping is not modelled; no claim reaches it.) -/
def goAtoi (s : String) : Int × Bool :=
  match s.toList with
  | '-' :: rest =>
    if !rest.isEmpty && rest.all Char.isDigit then (-1 * (digitsVal rest : Int), true)
    else (0, false)
  | '+' :: rest =>
    if !rest.isEmpty && rest.all Char.isDigit then ((digitsVal rest : Int), true)
    else (0, false)
  | cs =>
    if !cs.isEmpty && cs.all Char.isDigit then ((digitsVal cs : Int), true)
    else (0, false)

/-- gin c.Query: empty string when the parameter is absent. -/
def queryParam (p : Option String) : String := p.getD ""

/-- gin c.DefaultQuery: the default only when the parameter is absent. -/
def defaultQueryParam (p : Option String) (d : String) : String :=
  match p with
  | some v => v
  | none => d

/-- Handler.ListUsers parameter extraction (handler.go): search via Query,
age bounds via Query+Atoi with the error discarded, sort/order via
DefaultQuery, page/limit via DefaultQuery+Atoi with the error discarded. -/
def parseListParams (search ageMinP ageMaxP sortP orderP pageP limitP : Option String) :
    ListUsersQuery :=
  { search := queryParam search
    ageMin := (goAtoi (queryParam ageMinP)).1
    ageMax := (goAtoi (queryParam ageMaxP)).1
    sortBy := defaultQueryParam sortP "id"
    order := defaultQueryParam orderP "asc"
    page := (goAtoi (defaultQueryParam pageP "1")).1
    limit := (goAtoi (defaultQueryParam limitP "10")).1 }

/-- The user a successful create stores: trimmed fields, the hash of the
trimmed password, the store-assigned id, both timestamps at `now`. -/
def mkCreatedUser (hash : String → String) (now : Int)
    (st : SysState) (cmd : CreateUserCommand) : User :=
  { id := st.store.nextId, name := goTrim cmd.name, email := goTrim cmd.email,
    passwordHash := hash (goTrim cmd.password), age := cmd.age,
    createdAt := now, updatedAt := now }

/-- The state a successful create leaves: the row appended, the id sequence
advanced, the cache untouched. -/
def mkCreatedState (hash : String → String) (now : Int)
    (st : SysState) (cmd : CreateUserCommand) : SysState :=
  { store := { rows := st.store.rows ++ [mkCreatedUser hash now st cmd],
               nextId := st.store.nextId + 1 },
    cache := st.cache }

/-- Concrete stand-in for the opaque bcrypt hash capability, used only to
instantiate witnesses: an injective tagging of the plaintext. -/
def modelHash (p : String) : String := "h:" ++ p

/-- Concrete stand-in for bcrypt verification, matching modelHash. -/
def modelVerify (stored plain : String) : Bool := stored == modelHash plain

/-- Concrete stored user for the update scenario. -/
def exUserA : User :=
  { id := 1, name := "Alice", email := "alice@example.com",
    passwordHash := "h:oldpass1", age := 30, createdAt := 0, updatedAt := 0 }

/-- Concrete state whose cache already holds an entry for user 1. -/
def exStateA : SysState :=
  { store := { rows := [exUserA], nextId := 2 },
    cache := [(1, marshalUser exUserA)] }

/-- Concrete update command changing user 1's email. -/
def exUpdateCmd : UpdateUserCommand :=
  { id := 1, name := "Alice", email := "alice2@example.com", age := 31 }

/-- Concrete stored user for the change-password scenario. -/
def exUserP : User :=
  { id := 1, name := "Pat", email := "pat@example.com",
    passwordHash := "h:secret12", age := 40, createdAt := 0, updatedAt := 0 }

/-- Concrete state for the change-password scenario. -/
def exStateP : SysState :=
  { store := { rows := [exUserP], nextId := 2 }, cache := [] }

/-- Concrete user with a non-empty credential for the cache round trip. -/
def exCacheUser : User :=
  { id := 3, name := "Cleo", email := "c@x.com", passwordHash := "h:password1",
    age := 28, createdAt := 1, updatedAt := 2 }

section Lemmas

lemma goDiv_natCast (a b : Nat) : goDiv (a : Int) (b : Int) = ((a / b : Nat) : Int) := rfl

lemma goMod_natCast (a b : Nat) : goMod (a : Int) (b : Int) = ((a % b : Nat) : Int) := rfl

lemma natPages_le_mul (a b : Nat) (hb : 1 ≤ b) :
    a ≤ (a / b + if 0 < a % b then 1 else 0) * b := by
  have h1 : b * (a / b) + a % b = a := Nat.div_add_mod a b
  by_cases hr : 0 < a % b
  · have h2 : a % b < b := Nat.mod_lt a hb
    simp only [if_pos hr]
    calc a = b * (a / b) + a % b := h1.symm
      _ ≤ b * (a / b) + b := Nat.add_le_add_left (Nat.le_of_lt h2) _
      _ = (a / b + 1) * b := by ring
  · simp only [if_neg hr, Nat.add_zero]
    have hr0 : a % b = 0 := Nat.eq_zero_of_not_pos hr
    have ha : a = a / b * b := by
      calc a = b * (a / b) + a % b := h1.symm
        _ = a / b * b := by rw [hr0]; ring
    exact ha.le

lemma natPages_min (a b n : Nat) (hb : 1 ≤ b) (h : a ≤ n * b) :
    a / b + (if 0 < a % b then 1 else 0) ≤ n := by
  have h1 : b * (a / b) + a % b = a := Nat.div_add_mod a b
  by_cases hr : 0 < a % b
  · simp only [if_pos hr]
    have hlt : a / b < n := by
      by_contra hcon
      push_neg at hcon
      have h2 : n * b ≤ a / b * b := mul_le_mul_right' hcon b
      have h3 : a / b * b < a := by
        have hstep : b * (a / b) < b * (a / b) + a % b := Nat.lt_add_of_pos_right hr
        calc a / b * b = b * (a / b) := Nat.mul_comm _ _
          _ < b * (a / b) + a % b := hstep
          _ = a := h1
      linarith
    exact Nat.succ_le_of_lt hlt
  · simp only [if_neg hr, Nat.add_zero]
    have hr0 : a % b = 0 := Nat.eq_zero_of_not_pos hr
    have ha : a = a / b * b := by
      calc a = b * (a / b) + a % b := h1.symm
        _ = a / b * b := by rw [hr0]; ring
    have hmul : a / b * b ≤ n * b := ha ▸ h
    exact Nat.le_of_mul_le_mul_right hmul hb

lemma totalPagesCalc_natCast (a b : Nat) :
    totalPagesCalc (a : Int) (b : Int)
      = ((a / b + if 0 < a % b then 1 else 0 : Nat) : Int) := by
  unfold totalPagesCalc
  rw [goDiv_natCast, goMod_natCast]
  by_cases h : 0 < a % b
  · have h' : ((a % b : Nat) : Int) > 0 := by exact_mod_cast h
    rw [if_pos h', if_pos h]
    push_cast
    ring
  · have h' : ¬ (((a % b : Nat) : Int) > 0) := by exact_mod_cast h
    rw [if_neg h', if_neg h]
    push_cast
    ring

lemma normalizeListQuery_eval (q : ListUsersQuery) :
    normalizeListQuery q = { q with
      page := if q.page < 1 then 1 else q.page
      limit := if q.limit < 1 then 10 else if q.limit > 100 then 100 else q.limit
      sortBy := if q.sortBy = "" then "id" else q.sortBy
      order := if q.order = "" then "asc" else q.order } := by
  simp only [normalizeListQuery]
  by_cases h1 : q.page < 1 <;>
    by_cases h2 : q.limit < 1 <;>
      by_cases h3 : q.limit > 100 <;>
        by_cases h4 : q.sortBy = "" <;>
          by_cases h5 : q.order = "" <;>
            simp [h1, h2, h3, h4, h5]

lemma normalizeSearchQuery_eval (q : SearchUsersQuery) :
    normalizeSearchQuery q = { q with
      page := if q.page < 1 then 1 else q.page
      limit := if q.limit < 1 then 10 else if q.limit > 100 then 100 else q.limit } := by
  simp only [normalizeSearchQuery]
  by_cases h1 : q.page < 1 <;> by_cases h2 : q.limit < 1 <;> by_cases h3 : q.limit > 100 <;>
    simp [h1, h2, h3]

lemma normalizeListQuery_page_pos (q : ListUsersQuery) :
    1 ≤ (normalizeListQuery q).page := by
  rw [normalizeListQuery_eval]; dsimp only; split_ifs <;> omega

lemma normalizeListQuery_limit_bounds (q : ListUsersQuery) :
    1 ≤ (normalizeListQuery q).limit ∧ (normalizeListQuery q).limit ≤ 100 := by
  rw [normalizeListQuery_eval]; dsimp only; split_ifs <;> omega

lemma normalizeSearchQuery_limit_bounds (q : SearchUsersQuery) :
    1 ≤ (normalizeSearchQuery q).limit ∧ (normalizeSearchQuery q).limit ≤ 100 := by
  rw [normalizeSearchQuery_eval]; dsimp only; split_ifs <;> omega

lemma normalizeListQuery_page (q : ListUsersQuery) :
    (normalizeListQuery q).page = if q.page < 1 then 1 else q.page := by
  rw [normalizeListQuery_eval]

lemma normalizeListQuery_limit (q : ListUsersQuery) :
    (normalizeListQuery q).limit
      = if q.limit < 1 then 10 else if q.limit > 100 then 100 else q.limit := by
  rw [normalizeListQuery_eval]

lemma normalizeListQuery_sortBy (q : ListUsersQuery) :
    (normalizeListQuery q).sortBy = if q.sortBy = "" then "id" else q.sortBy := by
  rw [normalizeListQuery_eval]

lemma normalizeListQuery_order (q : ListUsersQuery) :
    (normalizeListQuery q).order = if q.order = "" then "asc" else q.order := by
  rw [normalizeListQuery_eval]

lemma listUsersHandle_total_eq (st : Store) (q : ListUsersQuery) :
    (listUsersHandle st q).total
      = ((st.rows.filter (fun u => matchesFilters (normalizeListQuery q) u)).length : Int) := rfl

lemma listUsersHandle_limit_eq (st : Store) (q : ListUsersQuery) :
    (listUsersHandle st q).limit = (normalizeListQuery q).limit := rfl

lemma listUsersHandle_page_eq (st : Store) (q : ListUsersQuery) :
    (listUsersHandle st q).page = (normalizeListQuery q).page := rfl

lemma searchUsersHandle_total_eq (st : Store) (q : SearchUsersQuery) :
    (searchUsersHandle st q).total
      = ((st.rows.filter (fun u =>
            ilikeContains u.name (normalizeSearchQuery q).keyword ||
            ilikeContains u.email (normalizeSearchQuery q).keyword)).length : Int) := rfl

lemma searchUsersHandle_limit_eq (st : Store) (q : SearchUsersQuery) :
    (searchUsersHandle st q).limit = (normalizeSearchQuery q).limit := rfl

lemma find?_filter_not {α : Type} (p : α → Bool) (l : List α) :
    (l.filter (fun x => !(p x))).find? p = none := by
  induction l with
  | nil => rfl
  | cons h t ih =>
    by_cases hh : p h
    · simp [List.filter_cons, hh, ih]
    · simp [List.filter_cons, hh, List.find?_cons, ih]

lemma cacheGetUser_delete (c : Cache) (id : Int) :
    cacheGetUser (cacheDeleteUser c id) id = none := by
  unfold cacheGetUser cacheDeleteUser
  rw [find?_filter_not]
  rfl

lemma getUserHandle_miss (st : SysState) (id : Int)
    (h : cacheGetUser st.cache id = none) :
    (getUserHandle st id).1 = repoGetByID st.store id := by
  unfold getUserHandle repoGetByID
  rw [h]
  cases hf : st.store.rows.find? (fun u => u.id == id) <;> simp [hf, repoGetByID]

lemma find?_append_of_last {α : Type} (p : α → Bool) (l : List α) (x : α)
    (hx : p x = true) : ∃ v, (l ++ [x]).find? p = some v := by
  induction l with
  | nil => exact ⟨x, by simp [List.find?, hx]⟩
  | cons hd t ih =>
    by_cases hh : p hd
    · exact ⟨hd, by simp [List.find?_cons, hh]⟩
    · obtain ⟨v, hv⟩ := ih
      exact ⟨v, by simp [List.find?_cons, hh, hv]⟩

lemma newUser_error_validation {hash : String → String} {now : Int}
    {name email password : String} {age : Int} {e : DomainError}
    (h : newUser hash now name email password age = .error e) :
    ∃ msg, e = .validation msg := by
  simp only [newUser] at h
  split_ifs at h
  all_goals injection h with h'
  all_goals exact ⟨_, h'.symm⟩

lemma newUser_ok_inv {hash : String → String} {now : Int}
    {name email password : String} {age : Int} {u : User}
    (h : newUser hash now name email password age = .ok u) :
    u = { id := 0, name := goTrim name, email := goTrim email,
          passwordHash := hash (goTrim password), age := age,
          createdAt := now, updatedAt := now } := by
  simp only [newUser] at h
  split_ifs at h
  first
    | exact h.symm
    | (injection h with h'; exact h'.symm)

lemma repoCreate_error_unique {st : Store} {u : User} {e : DomainError}
    (h : repoCreate st u = .error e) : e = .storeUniqueViolation := by
  unfold repoCreate at h
  split_ifs at h
  injection h with h'
  exact h'.symm

lemma repoCreate_ok_inv {st : Store} {u : User} {p : Store × User}
    (h : repoCreate st u = .ok p) :
    p = ({ rows := st.rows ++ [{ u with id := st.nextId }], nextId := st.nextId + 1 },
         { u with id := st.nextId }) := by
  unfold repoCreate at h
  split_ifs at h
  dsimp only at h
  first
    | exact h.symm
    | (injection h with h'; exact h'.symm)

lemma find?_eq_none_of_any_false {α : Type} (p : α → Bool) (l : List α)
    (h : l.any p = false) : l.find? p = none := by
  induction l with
  | nil => rfl
  | cons hd t ih =>
    simp only [List.any_cons, Bool.or_eq_false_iff] at h
    simp [List.find?_cons, h.1, ih h.2]

lemma find?_append_left_none {α : Type} (p : α → Bool) (l1 l2 : List α)
    (h : l1.find? p = none) : (l1 ++ l2).find? p = l2.find? p := by
  induction l1 with
  | nil => rfl
  | cons hd t ih =>
    by_cases hh : p hd
    · simp [List.find?_cons, hh] at h
    · simp only [List.find?_cons, hh, Bool.false_eq_true] at h
      simp [List.find?_cons, hh, ih h]

lemma cacheGetUser_passwordHash {c : Cache} {id : Int} {v : User}
    (h : cacheGetUser c id = some v) : v.passwordHash = "" := by
  unfold cacheGetUser at h
  cases hf : c.find? (fun p => p.1 == id) with
  | none => rw [hf] at h; simp at h
  | some p =>
    rw [hf] at h
    simp only [Option.map_some'] at h
    injection h with h'
    rw [← h']
    rfl

lemma goAtoi_cases (s : String) : (goAtoi s).2 = true ∨ goAtoi s = (0, false) := by
  unfold goAtoi
  split <;> split_ifs <;> simp

lemma goAtoi_failed_val {s : String} (h : (goAtoi s).2 = false) : (goAtoi s).1 = 0 := by
  rcases goAtoi_cases s with hc | hc
  · rw [hc] at h; exact absurd h (by simp)
  · rw [hc]

lemma createUserHandle_ok_inv {hash : String → String} {now : Int}
    {st : SysState} {cmd : CreateUserCommand} {r1 : User} {st1 : SysState}
    (h : createUserHandle hash now st cmd = (.ok r1, st1)) :
    ∃ u, newUser hash now cmd.name cmd.email cmd.password cmd.age = .ok u ∧
      repoCreate st.store u = .ok (st1.store, r1) ∧ st1.cache = st.cache := by
  unfold createUserHandle at h
  split at h
  · exfalso
    have h1 := congrArg Prod.fst h
    dsimp only at h1
    exact Except.noConfusion h1
  · split at h
    · exfalso
      have h1 := congrArg Prod.fst h
      dsimp only at h1
      exact Except.noConfusion h1
    · rename_i u heqNew
      split at h
      · exfalso
        have h1 := congrArg Prod.fst h
        dsimp only at h1
        exact Except.noConfusion h1
      · rename_i store' u' heqCreate
        have h1 := congrArg Prod.fst h
        have h2 := congrArg Prod.snd h
        dsimp only at h1 h2
        injection h1 with h1'
        subst h1'
        subst h2
        exact ⟨u, heqNew, heqCreate, rfl⟩

end Lemmas

section Claims

/-- C1: for every list or search request the returned total_pages equals
ceil(total / limit) computed by integer division with a remainder bump: for
all total ≥ 0 and limit ≥ 1, total_pages is total/limit plus 1 exactly when
the remainder is positive, and that value is the least n with
total ≤ n * limit (the integer ceiling — no floating point involved); both
handlers feed it a non-negative total and a normalized limit ≥ 1. -/
theorem totalPages_is_ceiling :
    (∀ total limit : Int, 0 ≤ total → 1 ≤ limit →
        totalPagesCalc total limit
            = goDiv total limit + (if goMod total limit > 0 then 1 else 0) ∧
          total ≤ totalPagesCalc total limit * limit ∧
          ∀ n : Int, total ≤ n * limit → totalPagesCalc total limit ≤ n) ∧
    (∀ st q, (listUsersHandle st q).totalPages
          = totalPagesCalc (listUsersHandle st q).total (listUsersHandle st q).limit ∧
        0 ≤ (listUsersHandle st q).total ∧ 1 ≤ (listUsersHandle st q).limit) ∧
    (∀ st q, (searchUsersHandle st q).totalPages
          = totalPagesCalc (searchUsersHandle st q).total (searchUsersHandle st q).limit ∧
        0 ≤ (searchUsersHandle st q).total ∧ 1 ≤ (searchUsersHandle st q).limit) := by
  refine ⟨?_, ?_, ?_⟩
  · intro total limit ht hl
    refine ⟨rfl, ?_⟩
    have hbpos : (0 : Int) < limit := lt_of_lt_of_le zero_lt_one hl
    lift total to Nat using ht with a
    lift limit to Nat using le_of_lt hbpos with b
    have hb : 1 ≤ b := by exact_mod_cast hl
    rw [totalPagesCalc_natCast]
    constructor
    · exact_mod_cast natPages_le_mul a b hb
    · intro n hn
      have hn0 : 0 ≤ n := by
        by_contra hneg
        push_neg at hneg
        have hlt : n * (b : Int) < 0 := mul_neg_of_neg_of_pos hneg hbpos
        have hge : (0 : Int) ≤ n * (b : Int) :=
          le_trans (by exact_mod_cast Nat.zero_le a) hn
        linarith
      lift n to Nat using hn0 with m
      have hm : a ≤ m * b := by exact_mod_cast hn
      exact_mod_cast natPages_min a b m hb hm
  · intro st q
    refine ⟨rfl, ?_, ?_⟩
    · rw [listUsersHandle_total_eq]; exact Int.natCast_nonneg _
    · rw [listUsersHandle_limit_eq]; exact (normalizeListQuery_limit_bounds q).1
  · intro st q
    refine ⟨rfl, ?_, ?_⟩
    · rw [searchUsersHandle_total_eq]; exact Int.natCast_nonneg _
    · rw [searchUsersHandle_limit_eq]; exact (normalizeSearchQuery_limit_bounds q).1

/-- C1 witness: the spec's worked examples, with the ceiling bounds obtained
from the theorem at total=50 and total=51, limit=10. -/
theorem totalPages_is_ceiling_witness :
    totalPagesCalc 50 10 = 5 ∧ totalPagesCalc 51 10 = 6 ∧ totalPagesCalc 0 10 = 0 ∧
    (50 : Int) ≤ totalPagesCalc 50 10 * 10 ∧ totalPagesCalc 51 10 ≤ 6 :=
  ⟨by decide, by decide, by decide,
   (totalPages_is_ceiling.1 50 10 (by decide) (by decide)).2.1,
   (totalPages_is_ceiling.1 51 10 (by decide) (by decide)).2.2 6 (by decide)⟩

/-- C2: normalization of a query descriptor is total and silent — every
descriptor yields a result, with page < 1 clamped to 1, limit < 1 to 10,
limit > 100 to 100, a sort field outside {id, name, email, age, created_at}
falling back to id, an order outside {asc, desc} falling back to asc — and the
normalized page and limit are the ones echoed in the paginated result. -/
theorem query_normalization_silent :
    ∀ (st : Store) (q : ListUsersQuery),
      (normalizeListQuery q).page = (if q.page < 1 then 1 else q.page) ∧
      (normalizeListQuery q).limit
          = (if q.limit < 1 then 10 else if q.limit > 100 then 100 else q.limit) ∧
      1 ≤ (normalizeListQuery q).page ∧
      1 ≤ (normalizeListQuery q).limit ∧ (normalizeListQuery q).limit ≤ 100 ∧
      effectiveSortBy (normalizeListQuery q).sortBy
          = (if validSortFields.contains q.sortBy then q.sortBy else "id") ∧
      effectiveOrder (normalizeListQuery q).order
          = (if q.order = "asc" ∨ q.order = "desc" then q.order else "asc") ∧
      (listUsersHandle st q).page = (normalizeListQuery q).page ∧
      (listUsersHandle st q).limit = (normalizeListQuery q).limit := by
  intro st q
  refine ⟨normalizeListQuery_page q, normalizeListQuery_limit q,
    normalizeListQuery_page_pos q, (normalizeListQuery_limit_bounds q).1,
    (normalizeListQuery_limit_bounds q).2, ?_, ?_, rfl, rfl⟩
  · rw [normalizeListQuery_sortBy]
    by_cases h : q.sortBy = ""
    · rw [h]; decide
    · rw [if_neg h]; rfl
  · rw [normalizeListQuery_order]
    by_cases h : q.order = ""
    · rw [h]; decide
    · rw [if_neg h]; rfl

/-- C3: the filter predicate is the conjunction of exactly the present
filters: a non-empty keyword contributes the case-insensitive wildcard match
against name OR email, each age bound contributes an inclusive comparison only
when strictly positive, and an absent bound (0 or below, or empty keyword)
contributes nothing — its implication is vacuous. -/
theorem filter_predicate_conjunction :
    ∀ (q : ListUsersQuery) (u : User),
      matchesFilters q u = true ↔
        ((q.search ≠ "" →
            (ilikeContains u.name q.search || ilikeContains u.email q.search) = true) ∧
         (q.ageMin > 0 → q.ageMin ≤ u.age) ∧
         (q.ageMax > 0 → u.age ≤ q.ageMax)) := by
  intro q u
  unfold matchesFilters filterConditions
  by_cases hs : q.search = "" <;>
    by_cases hmin : q.ageMin > 0 <;>
      by_cases hmax : q.ageMax > 0 <;>
        simp [hs, hmin, hmax, List.all_append]

/-- C4: every completed mutation of an existing user — update, delete,
change-password, but not create — ends with the cache entry for that
identifier deleted, so a subsequent get-by-id cannot observe the pre-mutation
cached value and instead falls through to the store; create leaves the cache
untouched. -/
theorem mutation_invalidates_cache :
    (∀ (now : Int) (st : SysState) (cmd : UpdateUserCommand) (r : User) (st' : SysState),
        updateUserHandle now st cmd = (.ok r, st') →
        cacheGetUser st'.cache cmd.id = none ∧
        (getUserHandle st' cmd.id).1 = repoGetByID st'.store cmd.id) ∧
    (∀ (st : SysState) (id : Int) (st' : SysState),
        deleteUserHandle st id = (.ok (), st') →
        cacheGetUser st'.cache id = none ∧
        (getUserHandle st' id).1 = repoGetByID st'.store id) ∧
    (∀ (verify : String → String → Bool) (hash : String → String) (now : Int)
        (st : SysState) (cmd : ChangePasswordCommand) (st' : SysState),
        changePasswordHandle verify hash now st cmd = (.ok (), st') →
        cacheGetUser st'.cache cmd.userId = none ∧
        (getUserHandle st' cmd.userId).1 = repoGetByID st'.store cmd.userId) ∧
    (∀ (hash : String → String) (now : Int) (st : SysState) (cmd : CreateUserCommand),
        ((createUserHandle hash now st cmd).2).cache = st.cache) := by
  refine ⟨?_, ?_, ?_, ?_⟩
  · intro now st cmd r st' h
    unfold updateUserHandle at h
    repeat' split at h
    all_goals first
      | (exfalso; simp at h; done)
      | (have h2 := congrArg Prod.snd h
         dsimp only at h2
         subst h2
         exact ⟨cacheGetUser_delete _ _,
           getUserHandle_miss _ _ (cacheGetUser_delete _ _)⟩)
  · intro st id st' h
    unfold deleteUserHandle at h
    repeat' split at h
    all_goals first
      | (exfalso; simp at h; done)
      | (have h2 := congrArg Prod.snd h
         dsimp only at h2
         subst h2
         exact ⟨cacheGetUser_delete _ _,
           getUserHandle_miss _ _ (cacheGetUser_delete _ _)⟩)
  · intro verify hash now st cmd st' h
    unfold changePasswordHandle at h
    repeat' split at h
    all_goals first
      | (exfalso; simp at h; done)
      | (have h2 := congrArg Prod.snd h
         dsimp only at h2
         subst h2
         exact ⟨cacheGetUser_delete _ _,
           getUserHandle_miss _ _ (cacheGetUser_delete _ _)⟩)
  · intro hash now st cmd
    unfold createUserHandle
    repeat' split
    all_goals rfl

/-- C4 witness: a concrete update against a state whose cache holds a stale
entry for id 1 — afterwards, the cache entry is gone and get-by-id goes to the
store. -/
theorem mutation_invalidates_cache_witness :
    cacheGetUser ((updateUserHandle 5 exStateA exUpdateCmd).2).cache 1 = none ∧
    (getUserHandle (updateUserHandle 5 exStateA exUpdateCmd).2 1).1
      = repoGetByID ((updateUserHandle 5 exStateA exUpdateCmd).2).store 1 :=
  mutation_invalidates_cache.1 5 exStateA exUpdateCmd
    { id := 1, name := "Alice", email := "alice2@example.com",
      passwordHash := "h:oldpass1", age := 31, createdAt := 0, updatedAt := 5 }
    ((updateUserHandle 5 exStateA exUpdateCmd).2) (by decide)

/-- C5: change_password with a wrong old password fails with the
incorrect-credential error and leaves the whole state (hence the stored hash)
unchanged; with the correct old password and a new password shorter than 8
bytes it fails with a validation error and likewise leaves the state
unchanged. -/
theorem changePassword_error_paths :
    ∀ (verify : String → String → Bool) (hash : String → String) (now : Int)
      (st : SysState) (cmd : ChangePasswordCommand) (u : User),
      repoGetByID st.store cmd.userId = .ok u →
      ((verify u.passwordHash cmd.oldPassword = false →
          changePasswordHandle verify hash now st cmd
            = (.error .incorrectCredential, st)) ∧
       (verify u.passwordHash cmd.oldPassword = true →
          cmd.newPassword.utf8ByteSize < 8 →
          ∃ msg, changePasswordHandle verify hash now st cmd
            = (.error (.validation msg), st))) := by
  intro verify hash now st cmd u hget
  unfold changePasswordHandle
  simp only [hget]
  constructor
  · intro hv
    unfold User.updatePassword
    rw [hv]
    simp
  · intro hv hlen
    unfold User.updatePassword
    rw [hv]
    by_cases he : cmd.newPassword = ""
    · exact ⟨"new password cannot be empty", by simp [he]⟩
    · exact ⟨"new password must be at least 8 characters", by simp [he, hlen]⟩

/-- C5 witness: concrete wrong-old-password and short-new-password attempts
against a stored user, both leaving the state unchanged. -/
theorem changePassword_error_paths_witness :
    changePasswordHandle modelVerify modelHash 9 exStateP
        { userId := 1, oldPassword := "wrongpass", newPassword := "newpass123" }
      = (.error .incorrectCredential, exStateP) ∧
    ∃ msg, changePasswordHandle modelVerify modelHash 9 exStateP
        { userId := 1, oldPassword := "secret12", newPassword := "short" }
      = (.error (.validation msg), exStateP) :=
  ⟨(changePassword_error_paths modelVerify modelHash 9 exStateP
      { userId := 1, oldPassword := "wrongpass", newPassword := "newpass123" }
      exUserP (by decide)).1 (by decide),
   (changePassword_error_paths modelVerify modelHash 9 exStateP
      { userId := 1, oldPassword := "secret12", newPassword := "short" }
      exUserP (by decide)).2 (by decide) (by decide)⟩

/-- C6 counterexample: two create requests with the identical email
" bob@example.com " (surrounding whitespace).  The pre-check compares the raw
email while the stored email is trimmed, so the second create slips past the
pre-check and fails on the store's unique constraint — a generic error, not
the Conflict (already-exists) condition. -/
theorem create_duplicate_email_not_conflict :
    (createUserHandle modelHash 1
        (createUserHandle modelHash 0 { store := { rows := [], nextId := 1 }, cache := [] }
          { name := "Bob", email := " bob@example.com ", password := "password1", age := 25 }).2
        { name := "Bob", email := " bob@example.com ", password := "password1", age := 25 }).1
      = .error .storeUniqueViolation ∧
    (createUserHandle modelHash 1
        (createUserHandle modelHash 0 { store := { rows := [], nextId := 1 }, cache := [] }
          { name := "Bob", email := " bob@example.com ", password := "password1", age := 25 }).2
        { name := "Bob", email := " bob@example.com ", password := "password1", age := 25 }).1
      ≠ .error .alreadyExists := by decide

/-- C6 (amended): for every pair of create requests with the same email whose
value carries no surrounding whitespace, the second create fails with the
Conflict (already-exists) condition and returns the state unchanged, so the
first user's stored data is untouched. -/
theorem duplicate_email_second_create_conflicts :
    ∀ (hash : String → String) (now1 now2 : Int) (st : SysState)
      (cmd1 cmd2 : CreateUserCommand) (r1 : User) (st1 : SysState),
      createUserHandle hash now1 st cmd1 = (.ok r1, st1) →
      cmd2.email = cmd1.email →
      goTrim cmd1.email = cmd1.email →
      createUserHandle hash now2 st1 cmd2 = (.error .alreadyExists, st1) := by
  intro hash now1 now2 st cmd1 cmd2 r1 st1 h he ht
  obtain ⟨u, heqNew, heqCreate, _⟩ := createUserHandle_ok_inv h
  have hu := newUser_ok_inv heqNew
  have hpair := repoCreate_ok_inv heqCreate
  have hstore := congrArg Prod.fst hpair
  dsimp only at hstore
  have huem : u.email = cmd2.email := by
    rw [he, hu]
    exact ht
  obtain ⟨v, hv⟩ : ∃ v, st1.store.rows.find? (fun x => x.email == cmd2.email) = some v := by
    rw [hstore]
    dsimp only
    apply find?_append_of_last
    show (({ u with id := st.store.nextId }).email == cmd2.email) = true
    simp [huem]
  have hpre : ((repoGetByEmail st1.store cmd2.email).1).isSome = true := by
    unfold repoGetByEmail
    rw [hv]
    rfl
  unfold createUserHandle
  rw [if_pos hpre]

/-- C6 witness: two whitespace-free creates of bob@example.com against the
empty state — the second fails with Conflict and leaves the state as the
first create left it. -/
theorem duplicate_email_second_create_conflicts_witness :
    createUserHandle modelHash 1
        (createUserHandle modelHash 0 { store := { rows := [], nextId := 1 }, cache := [] }
          { name := "Bob", email := "bob@example.com", password := "password1", age := 25 }).2
        { name := "Bob", email := "bob@example.com", password := "password1", age := 25 }
      = (.error .alreadyExists,
         (createUserHandle modelHash 0 { store := { rows := [], nextId := 1 }, cache := [] }
           { name := "Bob", email := "bob@example.com", password := "password1", age := 25 }).2) :=
  duplicate_email_second_create_conflicts modelHash 0 1
    { store := { rows := [], nextId := 1 }, cache := [] }
    { name := "Bob", email := "bob@example.com", password := "password1", age := 25 }
    { name := "Bob", email := "bob@example.com", password := "password1", age := 25 }
    { id := 1, name := "Bob", email := "bob@example.com", passwordHash := "h:password1",
      age := 25, createdAt := 0, updatedAt := 0 }
    ((createUserHandle modelHash 0 { store := { rows := [], nextId := 1 }, cache := [] }
      { name := "Bob", email := "bob@example.com", password := "password1", age := 25 }).2)
    (by decide) rfl (by decide)

/-- C7 counterexample: with no matching user, the repository's get-by-email
returns the pair (absent user, NotFound error) — the error component is not
nil, contradicting "returns absent and not an error". -/
theorem getByEmail_no_match_error_component :
    (repoGetByEmail { rows := [], nextId := 1 } "a@b.c").2 = some .notFound ∧
    (repoGetByEmail { rows := [], nextId := 1 } "a@b.c").2 ≠ none := by decide

/-- C7 (amended): with no matching user, get-by-email returns the absent user
TOGETHER with the NotFound error; its callers discard the error component and
test only absence, so at the call sites — here the create pre-check — absence
behaves as a normal outcome, never surfacing as the already-exists conflict. -/
theorem getByEmail_absent_with_error :
    ∀ (st : Store) (email : String),
      st.rows.find? (fun u => u.email == email) = none →
      repoGetByEmail st email = (none, some .notFound) ∧
      (∀ (hash : String → String) (now : Int) (c : Cache) (cmd : CreateUserCommand),
        cmd.email = email →
        (createUserHandle hash now { store := st, cache := c } cmd).1
          ≠ .error .alreadyExists) := by
  intro st email hf
  constructor
  · unfold repoGetByEmail; rw [hf]
  · intro hash now c cmd hce
    subst hce
    unfold createUserHandle
    have hns : (repoGetByEmail st cmd.email).1 = none := by
      unfold repoGetByEmail; rw [hf]
    rw [hns]
    simp only [Option.isSome_none, Bool.false_eq_true, if_false]
    split
    · rename_i e heqNew
      obtain ⟨msg, rfl⟩ := newUser_error_validation heqNew
      simp
    · split
      · rename_i e heqCreate
        rw [repoCreate_error_unique heqCreate]
        simp
      · simp

/-- C7 witness: the empty store at a concrete email — absent user with the
NotFound error, and the create pre-check does not flag a conflict. -/
theorem getByEmail_absent_with_error_witness :
    repoGetByEmail { rows := [], nextId := 1 } "b@c.d" = (none, some .notFound) ∧
    (createUserHandle modelHash 0 { store := { rows := [], nextId := 1 }, cache := [] }
        { name := "B", email := "b@c.d", password := "password1", age := 1 }).1
      ≠ .error .alreadyExists :=
  ⟨(getByEmail_absent_with_error { rows := [], nextId := 1 } "b@c.d" (by decide)).1,
   (getByEmail_absent_with_error { rows := [], nextId := 1 } "b@c.d" (by decide)).2
     modelHash 0 []
     { name := "B", email := "b@c.d", password := "password1", age := 1 } rfl⟩

/-- C8 counterexample: a valid input whose name carries trailing whitespace —
create then get-by-id returns the TRIMMED name "John", not the input name
"John ", so the Public View does not carry the same name as the input. -/
theorem create_then_get_returns_trimmed_name :
    (getUserHandle (createUserHandle modelHash 0
        { store := { rows := [], nextId := 1 }, cache := [] }
        { name := "John ", email := "j@x.com", password := "password1", age := 30 }).2 1).1
      = .ok { id := 1, name := "John", email := "j@x.com", passwordHash := "h:password1",
              age := 30, createdAt := 0, updatedAt := 0 } ∧
    ("John" : String) ≠ "John " := by decide

/-- C8 (amended): for every input valid after trimming (non-empty trimmed name
and email, trimmed password of at least 8 bytes, age in [0,150]) against a
well-formed state (email free, fresh id unused in store and cache), create
followed by get-by-id of the returned identifier yields that user with the
TRIMMED name and email and the same age, its Public View carries exactly those
fields — and the Public View has no credential field: it is insensitive to the
password hash. -/
theorem create_then_get_public_view :
    (∀ (hash : String → String) (now : Int) (st : SysState) (cmd : CreateUserCommand),
      goTrim cmd.name ≠ "" →
      goTrim cmd.email ≠ "" →
      goTrim cmd.password ≠ "" →
      8 ≤ (goTrim cmd.password).utf8ByteSize →
      0 ≤ cmd.age → cmd.age ≤ 150 →
      (repoGetByEmail st.store cmd.email).1 = none →
      st.store.rows.any (fun r => r.email == goTrim cmd.email) = false →
      st.store.rows.any (fun r => r.id == st.store.nextId) = false →
      cacheGetUser st.cache st.store.nextId = none →
      createUserHandle hash now st cmd
          = (.ok (mkCreatedUser hash now st cmd), mkCreatedState hash now st cmd) ∧
      (getUserHandle (mkCreatedState hash now st cmd)
          (mkCreatedUser hash now st cmd).id).1
          = .ok (mkCreatedUser hash now st cmd) ∧
      (mkCreatedUser hash now st cmd).name = goTrim cmd.name ∧
      (mkCreatedUser hash now st cmd).email = goTrim cmd.email ∧
      (mkCreatedUser hash now st cmd).age = cmd.age ∧
      (mkCreatedUser hash now st cmd).toPublicUser
          = { id := st.store.nextId, name := goTrim cmd.name, email := goTrim cmd.email,
              age := cmd.age, createdAt := now, updatedAt := now }) ∧
    (∀ (x : User) (s : String),
      User.toPublicUser { x with passwordHash := s } = x.toPublicUser) := by
  constructor
  · intro hash now st cmd hn he hpne hplen ha0 ha1 hpre hmail hid hcache
    have hnew : newUser hash now cmd.name cmd.email cmd.password cmd.age
        = .ok { id := 0, name := goTrim cmd.name, email := goTrim cmd.email,
                passwordHash := hash (goTrim cmd.password), age := cmd.age,
                createdAt := now, updatedAt := now } := by
      simp only [newUser]
      rw [if_neg hn, if_neg he, if_neg hpne, if_neg (by omega), if_neg (by omega)]
    have hcany : ¬ (st.store.rows.any (fun r =>
        r.email == ({ id := 0, name := goTrim cmd.name, email := goTrim cmd.email,
                      passwordHash := hash (goTrim cmd.password), age := cmd.age,
                      createdAt := now, updatedAt := now } : User).email) = true) := by
      dsimp only
      rw [hmail]
      simp
    have hcreate : repoCreate st.store
        { id := 0, name := goTrim cmd.name, email := goTrim cmd.email,
          passwordHash := hash (goTrim cmd.password), age := cmd.age,
          createdAt := now, updatedAt := now }
        = .ok ((mkCreatedState hash now st cmd).store, mkCreatedUser hash now st cmd) := by
      unfold repoCreate
      rw [if_neg hcany]
      rfl
    refine ⟨?_, ?_, rfl, rfl, rfl, rfl⟩
    · unfold createUserHandle
      rw [hpre]
      rw [if_neg (by simp : ¬ ((none : Option User).isSome = true))]
      simp only [hnew, hcreate]
      rfl
    · unfold getUserHandle
      have hc2 : cacheGetUser (mkCreatedState hash now st cmd).cache
          (mkCreatedUser hash now st cmd).id = none := hcache
      rw [hc2]
      have hfind : (mkCreatedState hash now st cmd).store.rows.find?
          (fun x => x.id == (mkCreatedUser hash now st cmd).id)
          = some (mkCreatedUser hash now st cmd) := by
        show (st.store.rows ++ [mkCreatedUser hash now st cmd]).find? _ = _
        rw [find?_append_left_none]
        · simp [List.find?]
        · exact find?_eq_none_of_any_false _ _ hid
      unfold repoGetByID
      rw [hfind]
  · intro x s
    rfl

/-- C8 witness: a concrete clean create against the empty state, followed by
get-by-id of the fresh identifier. -/
theorem create_then_get_public_view_witness :
    createUserHandle modelHash 7 { store := { rows := [], nextId := 1 }, cache := [] }
        { name := "Jane", email := "jane@x.com", password := "password1", age := 22 }
      = (.ok (mkCreatedUser modelHash 7 { store := { rows := [], nextId := 1 }, cache := [] }
            { name := "Jane", email := "jane@x.com", password := "password1", age := 22 }),
         mkCreatedState modelHash 7 { store := { rows := [], nextId := 1 }, cache := [] }
            { name := "Jane", email := "jane@x.com", password := "password1", age := 22 }) ∧
    (getUserHandle (mkCreatedState modelHash 7
          { store := { rows := [], nextId := 1 }, cache := [] }
          { name := "Jane", email := "jane@x.com", password := "password1", age := 22 })
        (mkCreatedUser modelHash 7 { store := { rows := [], nextId := 1 }, cache := [] }
          { name := "Jane", email := "jane@x.com", password := "password1", age := 22 }).id).1
      = .ok (mkCreatedUser modelHash 7 { store := { rows := [], nextId := 1 }, cache := [] }
          { name := "Jane", email := "jane@x.com", password := "password1", age := 22 }) :=
  ⟨(create_then_get_public_view.1 modelHash 7
      { store := { rows := [], nextId := 1 }, cache := [] }
      { name := "Jane", email := "jane@x.com", password := "password1", age := 22 }
      (by decide) (by decide) (by decide) (by decide) (by decide) (by decide)
      (by decide) (by decide) (by decide) (by decide)).1,
   (create_then_get_public_view.1 modelHash 7
      { store := { rows := [], nextId := 1 }, cache := [] }
      { name := "Jane", email := "jane@x.com", password := "password1", age := 22 }
      (by decide) (by decide) (by decide) (by decide) (by decide) (by decide)
      (by decide) (by decide) (by decide) (by decide)).2.1⟩

/-- C9: the cache's JSON serialization drops the password hash (json:"-"), so
a SetUser/GetUser round trip preserves id, name, email, age and both
timestamps but comes back with an empty hash — a user distinct from any stored
user carrying a non-empty hash, yet indistinguishable in the Public View; and
every cache hit in the get-by-id path returns such a credential-less user. -/
theorem cache_roundtrip_drops_credential :
    ∀ (u : User), u.passwordHash ≠ "" →
      (unmarshalUser (marshalUser u)).passwordHash = "" ∧
      unmarshalUser (marshalUser u) ≠ u ∧
      (unmarshalUser (marshalUser u)).toPublicUser = u.toPublicUser ∧
      (unmarshalUser (marshalUser u)).id = u.id ∧
      (unmarshalUser (marshalUser u)).name = u.name ∧
      (unmarshalUser (marshalUser u)).email = u.email ∧
      (unmarshalUser (marshalUser u)).age = u.age ∧
      (unmarshalUser (marshalUser u)).createdAt = u.createdAt ∧
      (unmarshalUser (marshalUser u)).updatedAt = u.updatedAt ∧
      (∀ c : Cache, cacheGetUser (cacheSetUser c u) u.id
          = some (unmarshalUser (marshalUser u))) ∧
      (∀ (st : SysState) (v : User), cacheGetUser st.cache u.id = some v →
        (getUserHandle st u.id).1 = .ok v ∧ v.passwordHash = "") := by
  intro u hu
  refine ⟨rfl, ?_, rfl, rfl, rfl, rfl, rfl, rfl, rfl, ?_, ?_⟩
  · intro heq
    exact hu ((congrArg User.passwordHash heq).symm)
  · intro c
    simp [cacheGetUser, cacheSetUser, List.find?]
  · intro st v hv
    constructor
    · unfold getUserHandle
      rw [hv]
    · exact cacheGetUser_passwordHash hv

/-- C9 witness: a concrete user with a non-empty hash round-tripped through
the cache encoding. -/
theorem cache_roundtrip_drops_credential_witness :
    (unmarshalUser (marshalUser exCacheUser)).passwordHash = "" ∧
    unmarshalUser (marshalUser exCacheUser) ≠ exCacheUser ∧
    (unmarshalUser (marshalUser exCacheUser)).toPublicUser = exCacheUser.toPublicUser :=
  ⟨(cache_roundtrip_drops_credential exCacheUser (by decide)).1,
   (cache_roundtrip_drops_credential exCacheUser (by decide)).2.1,
   (cache_roundtrip_drops_credential exCacheUser (by decide)).2.2.1⟩

/-- C10 counterexample: a MISSING page parameter is parsed as 1 (gin's
DefaultQuery supplies "1" before Atoi), not as 0 as the claim states. -/
theorem missing_page_param_parses_to_one :
    (parseListParams none none none none none none none).page = 1 ∧
    ((1 : Int) ≠ 0) := by decide

/-- C10 (amended): a parse failure of Atoi yields 0 with the error discarded;
a missing or non-numeric age bound is parsed as 0 and a zero age bound
imposes no age filter at all; a NON-NUMERIC page or limit is parsed as 0 and
normalization restores the defaults 1 and 10, while a MISSING page or limit
is parsed directly as its default 1 or 10; no such input makes the request
fail. -/
theorem list_param_parsing_lenient :
    (∀ s : String, (goAtoi s).2 = false → (goAtoi s).1 = 0) ∧
    (∀ sp so or pp lp : Option String, ∀ ax : Option String,
      (parseListParams sp none ax so or pp lp).ageMin = 0 ∧
      (parseListParams sp ax none so or pp lp).ageMax = 0 ∧
      (∀ s : String, (goAtoi s).2 = false →
        (parseListParams sp (some s) ax so or pp lp).ageMin = 0 ∧
        (parseListParams sp ax (some s) so or pp lp).ageMax = 0)) ∧
    (∀ sp am ax so or lp : Option String,
      (parseListParams sp am ax so or none lp).page = 1 ∧
      (parseListParams sp am ax so or lp none).limit = 10 ∧
      (∀ s : String, (goAtoi s).2 = false →
        (parseListParams sp am ax so or (some s) lp).page = 0 ∧
        (normalizeListQuery (parseListParams sp am ax so or (some s) lp)).page = 1 ∧
        (parseListParams sp am ax so or lp (some s)).limit = 0 ∧
        (normalizeListQuery (parseListParams sp am ax so or lp (some s))).limit = 10)) ∧
    (∀ (q : ListUsersQuery) (u : User) (a : Int), q.ageMin ≤ 0 → q.ageMax ≤ 0 →
      matchesFilters q u = matchesFilters q { u with age := a }) := by
  refine ⟨fun s hs => goAtoi_failed_val hs, ?_, ?_, ?_⟩
  · intro sp so or pp lp ax
    refine ⟨rfl, rfl, ?_⟩
    intro s hs
    constructor
    · show (goAtoi (queryParam (some s))).1 = 0
      exact goAtoi_failed_val hs
    · show (goAtoi (queryParam (some s))).1 = 0
      exact goAtoi_failed_val hs
  · intro sp am ax so or lp
    refine ⟨rfl, rfl, ?_⟩
    intro s hs
    have h0 : (goAtoi s).1 = 0 := goAtoi_failed_val hs
    refine ⟨h0, ?_, h0, ?_⟩
    · rw [normalizeListQuery_page]
      show (if (goAtoi s).1 < 1 then 1 else (goAtoi s).1) = 1
      rw [h0]
      norm_num
    · rw [normalizeListQuery_limit]
      show (if (goAtoi s).1 < 1 then 10
            else if (goAtoi s).1 > 100 then 100 else (goAtoi s).1) = 10
      rw [h0]
      norm_num
  · intro q u a hmin hmax
    unfold matchesFilters filterConditions
    have h1 : ¬ (q.ageMin > 0) := by omega
    have h2 : ¬ (q.ageMax > 0) := by omega
    by_cases hsq : q.search = "" <;> simp [h1, h2, hsq]

/-- C10 witness: the non-numeric parameter "abc" at each position, against the
concrete defaults. -/
theorem list_param_parsing_lenient_witness :
    (goAtoi "abc").1 = 0 ∧
    (parseListParams none none none none none (some "abc") none).page = 0 ∧
    (normalizeListQuery
        (parseListParams none none none none none (some "abc") none)).page = 1 ∧
    (normalizeListQuery
        (parseListParams none none none none none none (some "abc"))).limit = 10 :=
  ⟨list_param_parsing_lenient.1 "abc" (by decide),
   ((list_param_parsing_lenient.2.2.1 none none none none none none).2.2 "abc"
      (by decide)).1,
   ((list_param_parsing_lenient.2.2.1 none none none none none none).2.2 "abc"
      (by decide)).2.1,
   ((list_param_parsing_lenient.2.2.1 none none none none none none).2.2 "abc"
      (by decide)).2.2.2⟩

end Claims

end UserCrud
